import Mathlib

/-!
# Flash-backed circular log store (`sys/log/src/log_fcb.c`)

A shallow embedding of the storage handler of `log_fcb.c`:
`log_fcb_append`, `log_fcb_read`, `log_fcb_walk`, `log_fcb_flush`,
`log_fcb_copy_entry`, `log_fcb_copy`, `log_fcb_rtr_erase` and
`log_fcb_handler_init`.

C objects that are reached through pointers (the `struct fcb` objects, the
`struct log_handler` objects, the `struct fcb_log` binding) live in a small
heap inside `World`, addressed by natural numbers.  C `int` status codes are
`Int`; the `uint16_t` parameters of `log_fcb_read` are reduced modulo `2^16`.

The circular buffer primitive (`fcb_*`) and the flash area driver
(`flash_area_*`) are not part of the sources under study; they are modelled
from the specification, each with a fault queue from which an arbitrary
status code can be injected.
-/

namespace LogFcb

/-! ## Constants of absent headers -/

/-- Constants whose declarations (`fcb/fcb.h`, `log/log.h`, `hal/flash_map.h`)
are not among the sources; they are parameters of the development.
`sizeof_ueh` is `sizeof(struct log_entry_hdr)`, `fcb_scratch_addr` is the
address of the local `fcb_scratch` of `log_fcb_rtr_erase`, and `stack_fill`
is the byte found in uninitialised stack memory. -/
structure Params where
  FCB_ERR_NOSPACE : Int
  LOG_PRINTF_MAX_ENTRY_LEN : Nat
  sizeof_ueh : Nat
  FLASH_AREA_IMAGE_SCRATCH : Nat
  fcb_scratch_addr : Nat
  stack_fill : Nat

/-- Address of the global `struct fcb_log fcb_log`. -/
def fcb_log_addr : Nat := 1

/-! ## Data model -/

/-- The `struct flash_area` descriptor: identity and size in bytes. -/
structure flash_area where
  fa_id : Nat
  fa_size : Nat
deriving DecidableEq, Repr

/-- The `struct fcb_entry` locator. `fe_area = none` is the NULL pointer of a
zeroed locator. -/
structure fcb_entry where
  fe_area : Option Nat
  fe_elem_off : Nat
  fe_data_off : Nat
  fe_data_len : Nat
deriving DecidableEq, Repr

/-- Modelled from the spec: one reserved slot of a circular buffer, which
records the sector it lies in, the byte offset and length of its data and
whether it has been committed (the two-phase append of section 4.1). -/
structure fcb_slot where
  s_area : Nat
  s_off : Nat
  s_len : Nat
  s_done : Bool
deriving DecidableEq, Repr

/-- The `struct fcb`. The fields `f_magic`, `f_version`, `f_sector_cnt` and
`f_sectors` are those assigned by `log_fcb_rtr_erase`.
Modelled from the spec: the remaining fields are the state kept by the
circular buffer primitive: the sectors in use (oldest first, the last one
is written to), the erased sectors, every slot of the sectors in use (oldest
first) and the logical element offset of the first of these slots. -/
structure fcb where
  f_magic : Nat
  f_version : Nat
  f_sector_cnt : Nat
  f_sectors : List flash_area
  f_ring : List flash_area
  f_free : List flash_area
  f_slots : List fcb_slot
  f_base : Nat
deriving DecidableEq, Repr

/-- The `struct fcb_log` binding: retention count (`uint8_t`) and bound
buffer (a pointer to a `struct fcb`). -/
structure fcb_log where
  fl_entries : Nat
  fl_fcb : Nat
deriving DecidableEq, Repr

/-- The functions of `log_fcb.c` a handler entry point can designate. -/
inductive log_fn where
  | log_fcb_read
  | log_fcb_append
  | log_fcb_walk
  | log_fcb_flush
  | log_fcb_rtr_erase
deriving DecidableEq, Repr

/-- The `struct log_handler`: `none` is a NULL function pointer, `log_arg`
is a pointer to a `struct fcb_log`. -/
structure log_handler where
  log_type : Nat
  log_read : Option log_fn
  log_append : Option log_fn
  log_walk : Option log_fn
  log_flush : Option log_fn
  log_rtr_erase : Option log_fn
  log_arg : Nat
deriving DecidableEq, Repr

/-- The `struct log`: `l_log` points to the handler. -/
structure log where
  l_log : Nat
deriving DecidableEq, Repr

/-- `LOG_TYPE_STORAGE`. -/
def LOG_TYPE_STORAGE : Nat := 2

/-- The primitives whose status can be injected. -/
inductive Prim where
  | flash_area_open
  | flash_area_read
  | flash_area_write
  | fcb_init
  | fcb_clear
  | fcb_rotate
  | fcb_append
  | fcb_append_finish
  | fcb_offset_last_n
deriving DecidableEq, Repr

/-- Program state: flash contents (area, offset to byte), the flash map, the
heap of `struct fcb`, `struct log_handler` and `struct fcb_log` objects (the
global `fcb_log` is at `fcb_log_addr`), the global `sector`, and for every
primitive the queue of status codes its next calls report (an empty queue or
a zero head lets the call proceed). -/
structure World where
  flash : Nat → Nat → Nat
  flash_map : Nat → flash_area
  fcbs : Nat → fcb
  handlers : Nat → log_handler
  bindings : Nat → fcb_log
  sector : flash_area
  inject : Prim → List Int

/-- Takes the status the next call of primitive `p` reports. -/
def World.pop (w : World) (p : Prim) : Int × World :=
  match w.inject p with
  | [] => (0, w)
  | rc :: rest => (rc, { w with inject := fun q => if q = p then rest else w.inject q })

/-- Stores a `struct fcb` at an address. -/
def World.set_fcb (w : World) (addr : Nat) (f : fcb) : World :=
  { w with fcbs := fun a => if a = addr then f else w.fcbs a }

/-- The bytes of flash area `area` at `off .. off + len`. -/
def flash_bytes (fl : Nat → Nat → Nat) (area off len : Nat) : List Nat :=
  (List.range len).map (fun i => fl area (off + i))

/-- Flash contents after erasing the areas `ids`. -/
def flash_erase (fl : Nat → Nat → Nat) (ids : List Nat) : Nat → Nat → Nat :=
  fun a o => if a ∈ ids then 255 else fl a o

/-- Flash contents after storing the first `len` bytes of `buf` at `off`. -/
def flash_store (fl : Nat → Nat → Nat) (area off : Nat) (buf : List Nat) (len : Nat) :
    Nat → Nat → Nat :=
  fun a o => if a = area ∧ off ≤ o ∧ o < off + len then buf.getD (o - off) 0 else fl a o

/-! ## Flash area driver -/

/-- Modelled from the spec: `flash_area_open(id, &ptr)`, section 6
`open(area_id) -> area_handle`; returns the status and the descriptor. -/
def flash_area_open (w : World) (id : Nat) : Int × flash_area × World :=
  let (rc, w1) := w.pop Prim.flash_area_open
  (rc, w.flash_map id, w1)

/-- Modelled from the spec: `flash_area_read(area, off, buf, len)`, section 6
`read(area, offset, buf, length)`: on success the first `len` bytes of `buf`
are replaced by the flash contents; a NULL area is refused. -/
def flash_area_read (w : World) (area : Option Nat) (off : Nat) (buf : List Nat) (len : Nat) :
    Int × List Nat × World :=
  let (rc, w1) := w.pop Prim.flash_area_read
  if rc ≠ 0 then (rc, buf, w1)
  else match area with
    | none => (-1, buf, w1)
    | some a => (0, flash_bytes w.flash a off len ++ buf.drop len, w1)

/-- Modelled from the spec: `flash_area_write(area, off, buf, len)`, section 6
`write(area, offset, buf, length)`; a NULL area is refused. -/
def flash_area_write (w : World) (area : Option Nat) (off : Nat) (buf : List Nat) (len : Nat) :
    Int × World :=
  let (rc, w1) := w.pop Prim.flash_area_write
  if rc ≠ 0 then (rc, w1)
  else match area with
    | none => (-1, w1)
    | some a => (0, { w1 with flash := flash_store w1.flash a off buf len })

/-! ## Circular buffer primitive -/

/-- Locator of a slot whose logical element offset is `n`. -/
def slot_loc (n : Nat) (s : fcb_slot) : fcb_entry :=
  { fe_area := some s.s_area, fe_elem_off := n, fe_data_off := s.s_off, fe_data_len := s.s_len }

/-- Locators of the committed slots among `ss`, the first slot having logical
element offset `n`. -/
def slots_entries : Nat → List fcb_slot → List fcb_entry
  | _, [] => []
  | n, s :: ss =>
    if s.s_done then slot_loc n s :: slots_entries (n + 1) ss else slots_entries (n + 1) ss

/-- Modelled from the spec: the live entries of a buffer, oldest to newest:
the committed slots of the sectors in use. -/
def fcb_entries (f : fcb) : List fcb_entry :=
  slots_entries f.f_base f.f_slots

/-- Bytes used in sector `area`. -/
def sector_used (ss : List fcb_slot) (area : Nat) : Nat :=
  ((ss.filter (fun s => s.s_area = area)).map (fun s => s.s_len)).sum

/-- Adds an uncommitted slot of `len` bytes at offset `off` of sector `area`. -/
def fcb_push (f : fcb) (area off len : Nat) : fcb × fcb_entry :=
  ({ f with f_slots := f.f_slots ++ [{ s_area := area, s_off := off, s_len := len, s_done := false }] },
   { fe_area := some area, fe_elem_off := f.f_base + f.f_slots.length, fe_data_off := off,
     fe_data_len := len })

/-- Modelled from the spec: slot reservation of section 6
(`append_reserve(length) -> locator-in-progress`): the slot goes to the sector
being written if it has room, otherwise to the next erased sector, otherwise
there is no space. -/
def fcb_reserve (f : fcb) (len : Nat) : Option (fcb × fcb_entry) :=
  let next : Option (fcb × fcb_entry) :=
    match f.f_free with
    | [] => none
    | a :: rest =>
      if len ≤ a.fa_size then
        some (fcb_push { f with f_ring := f.f_ring ++ [a], f_free := rest } a.fa_id 0 len)
      else none
  match f.f_ring.getLast? with
  | none => next
  | some a =>
    if sector_used f.f_slots a.fa_id + len ≤ a.fa_size then
      some (fcb_push f a.fa_id (sector_used f.f_slots a.fa_id) len)
    else next

/-- Modelled from the spec: `fcb_append(fcb, len, &loc)`; on success `loc`
is the reserved slot, otherwise it is left as it was. -/
def fcb_append (P : Params) (w : World) (fcb : Nat) (len : Nat) (loc : fcb_entry) :
    Int × fcb_entry × World :=
  let (rc, w1) := w.pop Prim.fcb_append
  if rc ≠ 0 then (rc, loc, w1)
  else match fcb_reserve (w1.fcbs fcb) len with
    | none => (P.FCB_ERR_NOSPACE, loc, w1)
    | some (f, l) => (0, l, w1.set_fcb fcb f)

/-- Marks the slot at index `i` committed. -/
def commit_at : Nat → List fcb_slot → List fcb_slot
  | _, [] => []
  | 0, s :: ss => { s with s_done := true } :: ss
  | i + 1, s :: ss => s :: commit_at i ss

/-- Modelled from the spec: `fcb_append_finish(fcb, &loc)`, section 6
`append_commit(locator-in-progress)`. -/
def fcb_append_finish (w : World) (fcb : Nat) (loc : fcb_entry) : Int × World :=
  let (rc, w1) := w.pop Prim.fcb_append_finish
  if rc ≠ 0 then (rc, w1)
  else
    let f := w1.fcbs fcb
    if f.f_base ≤ loc.fe_elem_off then
      (0, w1.set_fcb fcb { f with f_slots := commit_at (loc.fe_elem_off - f.f_base) f.f_slots })
    else (0, w1)

/-- Modelled from the spec: `fcb_getnext(fcb, &loc)`, section 6
`get_next(cursor) -> locator | end`: from a zeroed cursor the oldest live
entry, otherwise the live entry following the cursor; `none` at the end. -/
def fcb_getnext (f : fcb) (loc : fcb_entry) : Option fcb_entry :=
  (fcb_entries f).find? (fun e => loc.fe_area = none ∨ loc.fe_elem_off < e.fe_elem_off)

/-- Modelled from the spec: `fcb_rotate(fcb)`: the oldest sector in use is
erased, its slots are gone, and it becomes available again. -/
def fcb_rotate (w : World) (fcb : Nat) : Int × World :=
  let (rc, w1) := w.pop Prim.fcb_rotate
  if rc ≠ 0 then (rc, w1)
  else
    let f := w1.fcbs fcb
    match f.f_ring with
    | [] => (0, w1)
    | a :: rest =>
      let kept := f.f_slots.dropWhile (fun s => s.s_area = a.fa_id)
      (0, { w1.set_fcb fcb { f with f_ring := rest, f_free := f.f_free ++ [a], f_slots := kept,
                                     f_base := f.f_base + (f.f_slots.length - kept.length) } with
            flash := flash_erase w1.flash [a.fa_id] })

/-- Modelled from the spec: `fcb_clear(fcb)`: every sector is erased and no
entry is left. -/
def fcb_clear (w : World) (fcb : Nat) : Int × World :=
  let (rc, w1) := w.pop Prim.fcb_clear
  if rc ≠ 0 then (rc, w1)
  else
    let f := w1.fcbs fcb
    (0, { w1.set_fcb fcb { f with f_ring := [], f_free := f.f_sectors, f_slots := [],
                                   f_base := f.f_base + f.f_slots.length } with
          flash := flash_erase w1.flash (f.f_sectors.map (fun a => a.fa_id)) })

/-- Modelled from the spec: `fcb_init(fcb)`, section 6
`init(sectors, magic, version)`: a buffer over the given sectors with no slot
in use. -/
def fcb_init (w : World) (fcb : Nat) : Int × World :=
  let (rc, w1) := w.pop Prim.fcb_init
  if rc ≠ 0 then (rc, w1)
  else
    let f := w1.fcbs fcb
    (0, w1.set_fcb fcb { f with f_ring := [], f_free := f.f_sectors, f_slots := [], f_base := 0 })

/-- Modelled from the spec: `fcb_offset_last_n(fcb, entries, &offset)`,
section 6 `offset_of_nth_from_last(n) -> offset`: the logical element offset
at which the last `entries` live entries start (that of the oldest entry when
there are fewer, the next free offset when none is asked for). -/
def fcb_offset_last_n (w : World) (fcb : Nat) (entries : Nat) (offset : Nat) :
    Int × Nat × World :=
  let (rc, w1) := w.pop Prim.fcb_offset_last_n
  if rc ≠ 0 then (rc, offset, w1)
  else
    let f := w1.fcbs fcb
    let es := fcb_entries f
    match es.drop (es.length - entries) with
    | e :: _ => (0, e.fe_elem_off, w1)
    | [] => (0, f.f_base + f.f_slots.length, w1)

/-! ## The storage handler (`log_fcb.c`) -/

/-- The function `log_fcb_handler_init`: installs the entry points on the
handler at address `handler`, stores `(fcb, entries)` in the global `fcb_log`
and points the handler's `log_arg` to it. `entries` is a `uint8_t`. -/
def log_fcb_handler_init (w : World) (handler : Nat) (fcb : Nat) (entries : Nat) : Int × World :=
  let h : log_handler :=
    { log_type := LOG_TYPE_STORAGE
      log_read := some log_fn.log_fcb_read
      log_append := some log_fn.log_fcb_append
      log_walk := some log_fn.log_fcb_walk
      log_flush := some log_fn.log_fcb_flush
      log_rtr_erase := some log_fn.log_fcb_rtr_erase
      log_arg := fcb_log_addr }
  (0, { w with
        handlers := fun a => if a = handler then h else w.handlers a
        bindings := fun a =>
          if a = fcb_log_addr then { fl_entries := entries % 256, fl_fcb := fcb }
          else w.bindings a })

/-- The buffer bound to a log: `((struct fcb_log *)log->l_log->log_arg)->fl_fcb`. -/
def bound_fcb (w : World) (lg : log) : Nat :=
  (w.bindings (w.handlers lg.l_log).log_arg).fl_fcb

/-- The retention count bound to a log:
`((struct fcb_log *)log->l_log->log_arg)->fl_entries`. -/
def bound_entries (w : World) (lg : log) : Nat :=
  (w.bindings (w.handlers lg.l_log).log_arg).fl_entries

/-- The length `log_fcb_read` passes to `flash_area_read`: `len` unless
`offset + len > fe_data_len`, in which case `fe_data_len - offset` is stored
into the `uint16_t` variable `len`. -/
def log_fcb_read_len (loc : fcb_entry) (offset len : Nat) : Nat :=
  if offset + len > loc.fe_data_len then
    Int.toNat (((loc.fe_data_len : Int) - (offset : Int)) % 65536)
  else len

/-- The function `log_fcb_read`; `offset` and `len` are `uint16_t` parameters.
Returns the status, the buffer and the state. -/
def log_fcb_read (w : World) (_lg : log) (loc : fcb_entry) (buf : List Nat) (offset len : Nat) :
    Int × List Nat × World :=
  let offset := offset % 65536
  let len := len % 65536
  let len := log_fcb_read_len loc offset len
  let (rc, buf1, w1) := flash_area_read w loc.fe_area (loc.fe_data_off + offset) buf len
  if rc = 0 then ((len : Int), buf1, w1) else (0, buf1, w1)

/-- The loop of `log_fcb_walk`: `loc` is the cursor, `rc` the last status. -/
def log_fcb_walk_loop {σ : Type} (f : fcb) (lg : log)
    (walk_func : log → σ → fcb_entry → Nat → Int × σ) :
    Nat → fcb_entry → σ → Int → Option (Int × σ)
  | 0, _, _, _ => none
  | fuel + 1, loc, arg, rc =>
    match fcb_getnext f loc with
    | none => some (rc, arg)
    | some loc1 =>
      let (rc1, arg1) := walk_func lg arg loc1 loc1.fe_data_len
      if rc1 ≠ 0 then some (rc1, arg1)
      else log_fcb_walk_loop f lg walk_func fuel loc1 arg1 rc1

/-- The zeroed locator (`memset(&loc, 0, sizeof(loc))`). -/
def fcb_entry_zero : fcb_entry :=
  { fe_area := none, fe_elem_off := 0, fe_data_off := 0, fe_data_len := 0 }

/-- The function `log_fcb_walk`; the callback threads its `arg` state.
`none` only when the fuel does not cover the entries. -/
def log_fcb_walk {σ : Type} (fuel : Nat) (w : World) (lg : log)
    (walk_func : log → σ → fcb_entry → Nat → Int × σ) (arg : σ) : Option (Int × σ) :=
  log_fcb_walk_loop (w.fcbs (bound_fcb w lg)) lg walk_func fuel fcb_entry_zero arg 0

/-- The function `log_fcb_flush`. -/
def log_fcb_flush (w : World) (lg : log) : Int × World :=
  fcb_clear w (bound_fcb w lg)

/-- The zeroed `struct fcb` (`memset(&fcb_scratch, 0, sizeof(fcb_scratch))`). -/
def fcb_zero : fcb :=
  { f_magic := 0, f_version := 0, f_sector_cnt := 0, f_sectors := [], f_ring := [], f_free := [],
    f_slots := [], f_base := 0 }

/-- First step of `log_fcb_rtr_erase`: `fcb_scratch` is zeroed and the scratch
flash area is opened (`flash_area_open(FLASH_AREA_IMAGE_SCRATCH, &ptr)`). -/
def rtr_open (P : Params) (w : World) : Int × flash_area × World :=
  flash_area_open (w.set_fcb P.fcb_scratch_addr fcb_zero) P.FLASH_AREA_IMAGE_SCRATCH

/-- Second step of `log_fcb_rtr_erase`: `sector = *ptr`, the fields of
`fcb_scratch` are assigned and `fcb_init(&fcb_scratch)` is called. -/
def rtr_init (P : Params) (w : World) : Int × World :=
  fcb_init
    (({ (rtr_open P w).2.2 with sector := (rtr_open P w).2.1 } : World).set_fcb P.fcb_scratch_addr
      { ((rtr_open P w).2.2.fcbs P.fcb_scratch_addr) with
        f_sectors := [(rtr_open P w).2.1], f_sector_cnt := 1, f_magic := 0x7EADBADF,
        f_version := 0 })
    P.fcb_scratch_addr

/-- Third step of `log_fcb_rtr_erase`: `fcb_clear(&fcb_scratch)`. -/
def rtr_clear (P : Params) (w : World) : Int × World :=
  fcb_clear (rtr_init P w).2 P.fcb_scratch_addr

/-- Fourth step of `log_fcb_rtr_erase`:
`fcb_offset_last_n(fcb, fcb_log->fl_entries, &offset)` with `offset` initially 0. -/
def rtr_offset (P : Params) (w : World) (arg : Nat) : Int × Nat × World :=
  fcb_offset_last_n (rtr_clear P w).2 (w.bindings arg).fl_fcb
    ((rtr_clear P w).2.bindings arg).fl_entries 0

mutual

/-- The `while (1)` loop of `log_fcb_append` together with the statements
that follow it (they run once, when the loop is left by `break`); `fcb_log`
and `fcb` are the pointers read before the loop, `loc` the local locator.
`none` when the fuel is exhausted. -/
def log_fcb_append_loop (P : Params) :
    Nat → World → log → Nat → Nat → List Nat → Nat → fcb_entry → Option (Int × World)
  | 0, _, _, _, _, _, _, _ => none
  | fuel + 1, w, lg, fcb_log, fcb, buf, len, loc =>
    match fcb_append P w fcb len loc with
    | (rc, loc1, w1) =>
      if rc = 0 then
        match flash_area_write w1 loc1.fe_area loc1.fe_data_off buf len with
        | (rc2, w2) =>
          if rc2 ≠ 0 then some (rc2, w2)
          else some (fcb_append_finish w2 fcb loc1)
      else if rc ≠ P.FCB_ERR_NOSPACE then some (rc, w1)
      else if (w1.handlers lg.l_log).log_rtr_erase.isSome ∧ (w1.bindings fcb_log).fl_entries ≠ 0 then
        match log_fcb_rtr_erase P fuel w1 (some lg) fcb_log with
        | none => none
        | some (rc2, w2) =>
          if rc2 ≠ 0 then some (rc2, w2)
          else log_fcb_append_loop P fuel w2 lg fcb_log fcb buf len loc1
      else
        match fcb_rotate w1 fcb with
        | (rc2, w2) =>
          if rc2 ≠ 0 then some (rc2, w2)
          else log_fcb_append_loop P fuel w2 lg fcb_log fcb buf len loc1
termination_by structural fuel => fuel

/-- The function `log_fcb_append`. -/
def log_fcb_append (P : Params) :
    Nat → World → log → List Nat → Nat → Option (Int × World)
  | 0, _, _, _, _ => none
  | fuel + 1, w, lg, buf, len =>
    log_fcb_append_loop P fuel w lg (w.handlers lg.l_log).log_arg
      (w.bindings (w.handlers lg.l_log).log_arg).fl_fcb buf len fcb_entry_zero
termination_by structural fuel => fuel

/-- The function `log_fcb_copy_entry`. -/
def log_fcb_copy_entry (P : Params) :
    Nat → World → log → fcb_entry → Nat → Option (Int × World)
  | 0, _, _, _, _ => none
  | fuel + 1, w, lg, entry, dst_fcb =>
    match log_fcb_read w lg entry (List.replicate P.sizeof_ueh P.stack_fill) 0 P.sizeof_ueh with
    | (rc, _, w1) =>
      if rc ≠ (P.sizeof_ueh : Int) then some (rc, w1)
      else
        let dlen := min entry.fe_data_len (P.LOG_PRINTF_MAX_ENTRY_LEN + P.sizeof_ueh)
        match log_fcb_read w1 lg entry
            (List.replicate (P.LOG_PRINTF_MAX_ENTRY_LEN + P.sizeof_ueh) P.stack_fill) 0 dlen with
        | (rc2, data, w2) =>
          if rc2 < 0 then some (rc2, w2)
          else
            let data := data.set rc2.toNat 0
            let fcb_tmp := bound_fcb w2 lg
            let entries_tmp := bound_entries w2 lg
            match log_fcb_handler_init w2 lg.l_log dst_fcb 0 with
            | (rc3, w3) =>
              if rc3 ≠ 0 then some (rc3, w3)
              else
                match log_fcb_append P fuel w3 lg data dlen with
                | none => none
                | some (rc4, w4) =>
                  if rc4 ≠ 0 then some (rc4, w4)
                  else
                    match log_fcb_handler_init w4 lg.l_log fcb_tmp entries_tmp with
                    | (rc5, w5) => some (rc5, w5)
termination_by structural fuel => fuel

/-- The loop of `log_fcb_copy`: `entry` is the cursor, `rc` the last status. -/
def log_fcb_copy_loop (P : Params) :
    Nat → World → log → Nat → Nat → Nat → fcb_entry → Int → Option (Int × World)
  | 0, _, _, _, _, _, _, _ => none
  | fuel + 1, w, lg, src_fcb, dst_fcb, offset, entry, rc =>
    match fcb_getnext (w.fcbs src_fcb) entry with
    | none => some (rc, w)
    | some entry1 =>
      if entry1.fe_elem_off < offset then
        log_fcb_copy_loop P fuel w lg src_fcb dst_fcb offset entry1 rc
      else
        match log_fcb_copy_entry P fuel w lg entry1 dst_fcb with
        | none => none
        | some (rc1, w1) =>
          if rc1 ≠ 0 then some (rc1, w1)
          else log_fcb_copy_loop P fuel w1 lg src_fcb dst_fcb offset entry1 rc1
termination_by structural fuel => fuel

/-- The function `log_fcb_copy`. -/
def log_fcb_copy (P : Params) :
    Nat → World → log → Nat → Nat → Nat → Option (Int × World)
  | 0, _, _, _, _, _ => none
  | fuel + 1, w, lg, src_fcb, dst_fcb, offset =>
    log_fcb_copy_loop P fuel w lg src_fcb dst_fcb offset fcb_entry_zero 0
termination_by structural fuel => fuel

/-- The function `log_fcb_rtr_erase`; `lg = none` is a NULL `log`, `arg`
points to the `struct fcb_log`. The steps up to the offset lookup are
`rtr_open`, `rtr_init`, `rtr_clear` and `rtr_offset`; a failed open leaves
`rc` at its initial value 0. -/
def log_fcb_rtr_erase (P : Params) :
    Nat → World → Option log → Nat → Option (Int × World)
  | 0, _, _, _ => none
  | fuel + 1, w, olog, arg =>
    match olog with
    | none => some (-1, w)
    | some lg =>
      let fcb := (w.bindings arg).fl_fcb
      if (rtr_open P w).1 ≠ 0 then some (0, (rtr_open P w).2.2)
      else if (rtr_init P w).1 ≠ 0 then some (rtr_init P w)
      else if (rtr_clear P w).1 ≠ 0 then some (rtr_clear P w)
      else if (rtr_offset P w arg).1 ≠ 0 then
        some ((rtr_offset P w arg).1, (rtr_offset P w arg).2.2)
      else
        match log_fcb_copy P fuel (rtr_offset P w arg).2.2 lg fcb P.fcb_scratch_addr
            (rtr_offset P w arg).2.1 with
        | none => none
        | some (rc, w7) =>
          if rc ≠ 0 then some (rc, w7)
          else
            match log_fcb_flush w7 lg with
            | (rc, w8) =>
              if rc ≠ 0 then some (rc, w8)
              else log_fcb_copy P fuel w8 lg P.fcb_scratch_addr fcb 0
termination_by structural fuel => fuel
end

/-! ## Auxiliary definitions -/

/-- The length `log_fcb_copy_entry` copies: the entry's data length capped at
`LOG_PRINTF_MAX_ENTRY_LEN + sizeof(ueh)`. -/
def copy_dlen (P : Params) (entry : fcb_entry) : Nat :=
  min entry.fe_data_len (P.LOG_PRINTF_MAX_ENTRY_LEN + P.sizeof_ueh)

/-- The first read of `log_fcb_copy_entry` (the entry header). -/
def copy_read_hdr (P : Params) (w : World) (lg : log) (entry : fcb_entry) :
    Int × List Nat × World :=
  log_fcb_read w lg entry (List.replicate P.sizeof_ueh P.stack_fill) 0 P.sizeof_ueh

/-- The second read of `log_fcb_copy_entry` (header and payload into `data`). -/
def copy_read_data (P : Params) (w : World) (lg : log) (entry : fcb_entry) :
    Int × List Nat × World :=
  log_fcb_read (copy_read_hdr P w lg entry).2.2 lg entry
    (List.replicate (P.LOG_PRINTF_MAX_ENTRY_LEN + P.sizeof_ueh) P.stack_fill) 0 (copy_dlen P entry)

/-- The first slot reservation of a call of `log_fcb_append`: `fcb_append` on
the bound buffer with the zeroed locator. -/
def append_reserve (P : Params) (w : World) (lg : log) (len : Nat) : Int × fcb_entry × World :=
  fcb_append P w (bound_fcb w lg) len fcb_entry_zero

/-- The payload write that follows the first slot reservation of a call of
`log_fcb_append`. -/
def append_write (P : Params) (w : World) (lg : log) (buf : List Nat) (len : Nat) : Int × World :=
  flash_area_write (append_reserve P w lg len).2.2 (append_reserve P w lg len).2.1.fe_area
    (append_reserve P w lg len).2.1.fe_data_off buf len

/-- The cursor test of `fcb_getnext`. -/
def after_cursor (loc : fcb_entry) (e : fcb_entry) : Bool :=
  decide (loc.fe_area = none ∨ loc.fe_elem_off < e.fe_elem_off)

/-- The heap of handlers and bindings is the same in two states. -/
def same_binding (w w1 : World) : Prop :=
  w1.handlers = w.handlers ∧ w1.bindings = w.bindings

/-! ## Specification-side definitions -/

/-- The walk of section 4.3 in the spec's words: the callback is invoked on
the entries from oldest to newest with the locator and its data length; the
first non-zero control code stops the traversal and is the terminal status;
exhausting the entries gives status zero. -/
def walk_spec {σ : Type} (lg : log) (walk_func : log → σ → fcb_entry → Nat → Int × σ) :
    List fcb_entry → σ → Int × σ
  | [], arg => (0, arg)
  | e :: es, arg =>
    let r := walk_func lg arg e e.fe_data_len
    if r.1 ≠ 0 then r else walk_spec lg walk_func es r.2

/-- The live entries of the buffer bound to a log. -/
def live_entries (w : World) (lg : log) : List fcb_entry :=
  fcb_entries (w.fcbs (bound_fcb w lg))

/-- The data bytes of an entry in given flash contents. -/
def entry_bytes (fl : Nat → Nat → Nat) (e : fcb_entry) : List Nat :=
  match e.fe_area with
  | none => []
  | some a => flash_bytes fl a e.fe_data_off e.fe_data_len

/-- The data bytes of an entry as they stand in flash. -/
def entry_data (w : World) (e : fcb_entry) : List Nat :=
  entry_bytes w.flash e

/-- The handler as `log_fcb_handler_init` sets it up. -/
def installed_handler : log_handler :=
  { log_type := LOG_TYPE_STORAGE, log_read := some log_fn.log_fcb_read,
    log_append := some log_fn.log_fcb_append, log_walk := some log_fn.log_fcb_walk,
    log_flush := some log_fn.log_fcb_flush, log_rtr_erase := some log_fn.log_fcb_rtr_erase,
    log_arg := fcb_log_addr }

/-- No primitive has a status code queued: every primitive call proceeds. -/
def quiet (w : World) : Prop := ∀ p, w.inject p = []

/-- Committed slots of the given lengths laid out back to back in sector
`area` from offset `u`. -/
def packed_slots (area : Nat) : Nat → List Nat → List fcb_slot
  | _, [] => []
  | u, l :: ls => ⟨area, u, l, true⟩ :: packed_slots area (u + l) ls

/-- Calls `log_fcb_append` on each payload in turn (each with its own length)
and collects the statuses; `none` when a call runs out of fuel. -/
def log_fcb_append_all (P : Params) (fuel : Nat) (lg : log) :
    World → List (List Nat) → Option (List Int × World)
  | w, [] => some ([], w)
  | w, b :: bs =>
    match log_fcb_append P fuel w lg b b.length with
    | none => none
    | some (rc, w1) =>
      match log_fcb_append_all P fuel lg w1 bs with
      | none => none
      | some (rcs, w2) => some (rc :: rcs, w2)

/-- Example constants: a two-byte entry header and four payload bytes at most. -/
def ex_params : Params :=
  { FCB_ERR_NOSPACE := -4, LOG_PRINTF_MAX_ENTRY_LEN := 4, sizeof_ueh := 2,
    FLASH_AREA_IMAGE_SCRATCH := 3, fcb_scratch_addr := 100, stack_fill := 170 }

/-- Example handler, as `log_fcb_handler_init` leaves it. -/
def ex_handler : log_handler :=
  { log_type := LOG_TYPE_STORAGE, log_read := some log_fn.log_fcb_read,
    log_append := some log_fn.log_fcb_append, log_walk := some log_fn.log_fcb_walk,
    log_flush := some log_fn.log_fcb_flush, log_rtr_erase := some log_fn.log_fcb_rtr_erase,
    log_arg := fcb_log_addr }

/-- Example log, whose handler is at address 5. -/
def ex_log : log := { l_log := 5 }

/-- Example buffer over the single eight-byte sector 1 holding the given slots. -/
def ex_fcb (slots : List fcb_slot) : fcb :=
  { fcb_zero with f_sectors := [⟨1, 8⟩], f_sector_cnt := 1, f_ring := [⟨1, 8⟩], f_slots := slots }

/-- Example state: the live buffer is at address 10 and bound with retention
count `n`; flash byte `o` of every area holds `o`; every flash area has eight
bytes; `inj` gives the injected status codes. -/
def ex_world (slots : List fcb_slot) (n : Nat) (inj : Prim → List Int) : World :=
  { flash := fun _ o => o, flash_map := fun i => ⟨i, 8⟩, fcbs := fun _ => ex_fcb slots,
    handlers := fun _ => ex_handler, bindings := fun _ => ⟨n, 10⟩, sector := ⟨0, 0⟩,
    inject := inj }

/-- No status code is injected. -/
def no_faults : Prim → List Int := fun _ => []

/-- The calls of primitive `p` report the status codes `rcs` in turn. -/
def faults_on (p : Prim) (rcs : List Int) : Prim → List Int :=
  fun q => if q = p then rcs else []

/-! ## Reading: `log_fcb_read` -/

theorem pop_flash (w : World) (p : Prim) : (w.pop p).2.flash = w.flash := by
  unfold World.pop; split <;> rfl

theorem pop_fcbs (w : World) (p : Prim) : (w.pop p).2.fcbs = w.fcbs := by
  unfold World.pop; split <;> rfl

theorem pop_handlers (w : World) (p : Prim) : (w.pop p).2.handlers = w.handlers := by
  unfold World.pop; split <;> rfl

theorem pop_bindings (w : World) (p : Prim) : (w.pop p).2.bindings = w.bindings := by
  unfold World.pop; split <;> rfl

theorem log_fcb_read_len_lt (loc : fcb_entry) (offset len : Nat) (h : len < 65536) :
    log_fcb_read_len loc offset len < 65536 := by
  unfold log_fcb_read_len
  split
  · omega
  · exact h

/-- C9: `log_fcb_read` returns 0 when `flash_area_read` reports a non-zero
status and the (possibly clipped) length otherwise; the result is never
negative. -/
theorem log_fcb_read_status (w : World) (lg : log) (loc : fcb_entry) (buf : List Nat)
    (offset len : Nat) :
    (log_fcb_read w lg loc buf offset len).1 =
      (if (flash_area_read w loc.fe_area (loc.fe_data_off + offset % 65536) buf
            (log_fcb_read_len loc (offset % 65536) (len % 65536))).1 = 0
        then ((log_fcb_read_len loc (offset % 65536) (len % 65536) : Nat) : Int) else 0)
    ∧ 0 ≤ (log_fcb_read w lg loc buf offset len).1 := by
  unfold log_fcb_read
  constructor
  · simp only []
    split <;> rfl
  · simp only []
    split
    · exact Int.ofNat_nonneg _
    · exact le_refl _

/-- C2 (failing input): on an entry of 10 data bytes, a read at offset 20 of
length 5 with a succeeding flash access asks the flash for 65526 bytes
starting 20 bytes into the entry and returns 65526. -/
theorem log_fcb_read_clip_wraps :
    log_fcb_read_len ⟨some 1, 0, 0, 10⟩ 20 5 = 65526
    ∧ (log_fcb_read (ex_world [] 0 no_faults) ex_log ⟨some 1, 0, 0, 10⟩ [] 20 5).1 = 65526
    ∧ (log_fcb_read (ex_world [] 0 no_faults) ex_log ⟨some 1, 0, 0, 10⟩ [] 20 5).2.1.length
        = 65526 := by
  refine ⟨by decide, by decide, ?_⟩
  simp [log_fcb_read, flash_area_read, World.pop, ex_world, no_faults, log_fcb_read_len,
    flash_bytes]

/-- Within the entry (`offset ≤ fe_data_len`) the clipped length is the
remaining length, and no read goes past the entry. -/
theorem log_fcb_read_len_within (loc : fcb_entry) (offset len : Nat)
    (hoff : offset ≤ loc.fe_data_len) (hD : loc.fe_data_len < 65536) :
    (loc.fe_data_len < offset + len → log_fcb_read_len loc offset len = loc.fe_data_len - offset)
    ∧ offset + log_fcb_read_len loc offset len ≤ loc.fe_data_len := by
  unfold log_fcb_read_len
  have key : Int.toNat (((loc.fe_data_len : Int) - (offset : Int)) % 65536)
      = loc.fe_data_len - offset := by
    have h1 : ((loc.fe_data_len : Int) - (offset : Int)) = ((loc.fe_data_len - offset : Nat) : Int) := by
      omega
    rw [h1]
    have h2 : (((loc.fe_data_len - offset : Nat) : Int) % 65536)
        = ((loc.fe_data_len - offset : Nat) : Int) := by
      apply Int.emod_eq_of_lt <;> omega
    rw [h2]; simp
  constructor
  · intro h
    rw [if_pos h, key]
  · split
    · rw [key]; omega
    · omega

/-! ## Walking: `log_fcb_walk` -/

theorem slots_entries_ge (ss : List fcb_slot) :
    ∀ n e, e ∈ slots_entries n ss → n ≤ e.fe_elem_off ∧ e.fe_area ≠ none := by
  induction ss with
  | nil => intro n e h; simp [slots_entries] at h
  | cons s ss ih =>
    intro n e h
    unfold slots_entries at h
    split at h
    · rcases List.mem_cons.mp h with h1 | h1
      · subst h1; simp [slot_loc]
      · have := ih (n + 1) e h1
        exact ⟨by omega, this.2⟩
    · have := ih (n + 1) e h
      exact ⟨by omega, this.2⟩

theorem slots_entries_sorted (ss : List fcb_slot) :
    ∀ n, (slots_entries n ss).Pairwise (fun a b => a.fe_elem_off < b.fe_elem_off) := by
  induction ss with
  | nil => intro n; simp [slots_entries]
  | cons s ss ih =>
    intro n
    unfold slots_entries
    split
    · refine List.pairwise_cons.mpr ⟨?_, ih (n + 1)⟩
      intro e he
      have := (slots_entries_ge ss (n + 1) e he).1
      simp only [slot_loc]; omega
    · exact ih (n + 1)

theorem fcb_getnext_eq (f : fcb) (loc : fcb_entry) :
    fcb_getnext f loc = (fcb_entries f).find? (after_cursor loc) := rfl

/-- In a list sorted by element offset, the entry found after a cursor that
is the last of `pre` is the head of what follows. -/
theorem find_after_cursor (pre rest : List fcb_entry) (c : fcb_entry)
    (hs : (pre ++ c :: rest).Pairwise (fun a b => a.fe_elem_off < b.fe_elem_off))
    (hc : c.fe_area ≠ none) :
    (pre ++ c :: rest).find? (after_cursor c) = rest.head? := by
  have hpre : ∀ x ∈ pre, after_cursor c x = false := by
    intro x hx
    have h1 := (List.pairwise_append.mp hs).2.2 x hx c (List.mem_cons_self _ _)
    simp [after_cursor, hc]; omega
  have hc2 : after_cursor c c = false := by simp [after_cursor, hc]
  have hrest : ∀ x ∈ rest, after_cursor c x = true := by
    intro x hx
    have h2 := (List.pairwise_append.mp hs).2.1
    have h3 := (List.pairwise_cons.mp h2).1 x hx
    simp [after_cursor, h3]
  rw [List.find?_append]
  have h4 : pre.find? (after_cursor c) = none := by
    rw [List.find?_eq_none]; intro x hx; simp [hpre x hx]
  rw [h4]
  simp only [Option.none_or, List.find?_cons, hc2]
  cases rest with
  | nil => rfl
  | cons r rs => simp [List.find?_cons, hrest r (List.mem_cons_self _ _)]

theorem find_after_zero (es : List fcb_entry) :
    es.find? (after_cursor fcb_entry_zero) = es.head? := by
  cases es with
  | nil => rfl
  | cons e es => simp [List.find?_cons, after_cursor, fcb_entry_zero]

/-- The loop of `log_fcb_walk`, started at a cursor whose successors are
`rest`, computes the specified walk of `rest`. -/
theorem log_fcb_walk_loop_spec {σ : Type} (f : fcb) (lg : log)
    (walk_func : log → σ → fcb_entry → Nat → Int × σ) :
    ∀ (rest pre : List fcb_entry) (fuel : Nat) (c : fcb_entry) (arg : σ),
      fcb_entries f = pre ++ rest →
      fcb_getnext f c = rest.head? →
      rest.length < fuel →
      log_fcb_walk_loop f lg walk_func fuel c arg 0 = some (walk_spec lg walk_func rest arg) := by
  intro rest
  induction rest with
  | nil =>
    intro pre fuel c arg _ hn hfuel
    cases fuel with
    | zero => simp at hfuel
    | succ fuel =>
      simp only [log_fcb_walk_loop, hn, List.head?_nil, walk_spec]
  | cons e rest ih =>
    intro pre fuel c arg hes hn hfuel
    cases fuel with
    | zero => simp at hfuel
    | succ fuel =>
      have hsorted := slots_entries_sorted f.f_slots f.f_base
      have hmem : e ∈ fcb_entries f := by rw [hes]; simp
      have harea := (slots_entries_ge f.f_slots f.f_base e hmem).2
      have hnext : fcb_getnext f e = rest.head? := by
        rw [fcb_getnext_eq, hes]
        apply find_after_cursor
        · rw [← hes]; exact hsorted
        · exact harea
      have hes2 : fcb_entries f = (pre ++ [e]) ++ rest := by rw [hes]; simp
      have hfuel2 : rest.length < fuel := by simp at hfuel; omega
      simp only [log_fcb_walk_loop, hn, List.head?_cons, walk_spec]
      by_cases hrc : (walk_func lg arg e e.fe_data_len).1 = 0
      · simp only [hrc, ne_eq, not_true_eq_false, if_false]
        exact ih (pre ++ [e]) fuel e (walk_func lg arg e e.fe_data_len).2 hes2 hnext hfuel2
      · simp only [ne_eq, hrc, not_false_eq_true, if_true]

/-- With fuel for every live entry, the walk of the bound buffer is the
specified walk of its live entries. -/
theorem log_fcb_walk_eq {σ : Type} (fuel : Nat) (w : World) (lg : log)
    (walk_func : log → σ → fcb_entry → Nat → Int × σ) (arg : σ)
    (hfuel : (live_entries w lg).length < fuel) :
    log_fcb_walk fuel w lg walk_func arg
      = some (walk_spec lg walk_func (live_entries w lg) arg) := by
  unfold log_fcb_walk live_entries
  apply log_fcb_walk_loop_spec _ lg walk_func _ [] fuel
  · rfl
  · rw [fcb_getnext_eq, find_after_zero]
  · exact hfuel

/-- C4: with fuel for every live entry, `log_fcb_walk` returns, and its
result is the specified walk of the live entries of the bound buffer, oldest
to newest: the callback sees each locator with its data length, the first
non-zero code stops the walk and is returned, and otherwise every entry is
visited once and the result is 0. -/
theorem log_fcb_walk_spec {σ : Type} (fuel : Nat) (w : World) (lg : log)
    (walk_func : log → σ → fcb_entry → Nat → Int × σ) (arg : σ)
    (hfuel : (live_entries w lg).length < fuel) :
    log_fcb_walk fuel w lg walk_func arg
      = some (walk_spec lg walk_func (live_entries w lg) arg) :=
  log_fcb_walk_eq fuel w lg walk_func arg hfuel

/-- C4 (witness): a walk over two live entries whose callback records what
it is given. -/
theorem log_fcb_walk_spec_witness :
    (live_entries (ex_world [⟨1, 0, 3, true⟩, ⟨1, 3, 2, true⟩] 0 no_faults) ex_log).length < 3
    ∧ log_fcb_walk 3 (ex_world [⟨1, 0, 3, true⟩, ⟨1, 3, 2, true⟩] 0 no_faults) ex_log
        (fun _ (acc : List (fcb_entry × Nat)) e n => (0, acc ++ [(e, n)])) []
      = some (walk_spec ex_log (fun _ (acc : List (fcb_entry × Nat)) e n => (0, acc ++ [(e, n)]))
          (live_entries (ex_world [⟨1, 0, 3, true⟩, ⟨1, 3, 2, true⟩] 0 no_faults) ex_log) []) :=
  ⟨by decide, log_fcb_walk_spec 3 _ ex_log _ [] (by decide)⟩

/-! ## Flushing: `log_fcb_flush` -/

theorem fcb_clear_handlers (w : World) (a : Nat) : (fcb_clear w a).2.handlers = w.handlers := by
  unfold fcb_clear
  simp only []
  split
  · exact pop_handlers w _
  · simp only [World.set_fcb]; exact pop_handlers w _

theorem fcb_clear_bindings (w : World) (a : Nat) : (fcb_clear w a).2.bindings = w.bindings := by
  unfold fcb_clear
  simp only []
  split
  · exact pop_bindings w _
  · simp only [World.set_fcb]; exact pop_bindings w _

theorem fcb_clear_entries (w : World) (a : Nat) (h : (fcb_clear w a).1 = 0) :
    fcb_entries ((fcb_clear w a).2.fcbs a) = [] := by
  unfold fcb_clear at h ⊢
  simp only [] at h ⊢
  split
  · rename_i hrc
    rw [if_pos hrc] at h
    exact absurd h hrc
  · simp [World.set_fcb, fcb_entries, slots_entries]

/-- C10: the result of `log_fcb_flush` is the status of clearing the bound
buffer, and when it is 0 a walk right afterwards returns 0 without invoking
the callback (its argument state is returned untouched), whatever the
retention count. -/
theorem log_fcb_flush_complete {σ : Type} (w : World) (lg : log)
    (walk_func : log → σ → fcb_entry → Nat → Int × σ) (arg : σ) (fuel : Nat)
    (h : (log_fcb_flush w lg).1 = 0) :
    (log_fcb_flush w lg).1 = (fcb_clear w (bound_fcb w lg)).1
    ∧ live_entries (log_fcb_flush w lg).2 lg = []
    ∧ log_fcb_walk (fuel + 1) (log_fcb_flush w lg).2 lg walk_func arg = some (0, arg) := by
  have hb : bound_fcb (log_fcb_flush w lg).2 lg = bound_fcb w lg := by
    unfold log_fcb_flush bound_fcb
    rw [fcb_clear_handlers, fcb_clear_bindings]
  have he : live_entries (log_fcb_flush w lg).2 lg = [] := by
    unfold live_entries
    rw [hb]
    exact fcb_clear_entries w _ h
  refine ⟨rfl, he, ?_⟩
  rw [log_fcb_walk_eq (fuel + 1) _ lg walk_func arg (by rw [he]; simp), he]
  rfl

/-- C10 (witness): flushing a buffer of two entries bound with retention
count 2. -/
theorem log_fcb_flush_complete_witness :
    (log_fcb_flush (ex_world [⟨1, 0, 3, true⟩, ⟨1, 3, 2, true⟩] 2 no_faults) ex_log).1 = 0
    ∧ log_fcb_walk 1
        (log_fcb_flush (ex_world [⟨1, 0, 3, true⟩, ⟨1, 3, 2, true⟩] 2 no_faults) ex_log).2 ex_log
        (fun _ (n : Nat) _ _ => (1, n + 1)) 0 = some (0, 0) :=
  ⟨by decide,
   (log_fcb_flush_complete (ex_world [⟨1, 0, 3, true⟩, ⟨1, 3, 2, true⟩] 2 no_faults) ex_log
      (fun _ (n : Nat) _ _ => (1, n + 1)) 0 0 (by decide)).2.2⟩

/-! ## Retention-preserving erase: failures -/

/-- C6 (failing input): when opening the scratch flash area fails with status
5, `log_fcb_rtr_erase` stops there and returns 0; the live buffer still
holds its entry. -/
theorem log_fcb_rtr_erase_open_failure :
    (flash_area_open (ex_world [⟨1, 0, 3, true⟩] 2 (faults_on Prim.flash_area_open [5]))
        ex_params.FLASH_AREA_IMAGE_SCRATCH).1 = 5
    ∧ (log_fcb_rtr_erase ex_params 1
        (ex_world [⟨1, 0, 3, true⟩] 2 (faults_on Prim.flash_area_open [5]))
        (some ex_log) fcb_log_addr).map (fun r => (r.1, live_entries r.2 ex_log))
      = some (0, [⟨some 1, 0, 0, 3⟩]) := by
  decide

/-- C7 (failing input): a flash write failure (status 7) inside
`log_fcb_copy_entry` makes it, `log_fcb_copy` and `log_fcb_rtr_erase` return 7
with the handler left bound to the destination buffer (address 100, the
scratch buffer) with retention count 0, where it was bound to the buffer at
address 10 with retention count 2 on entry. -/
theorem log_fcb_copy_entry_leaves_binding :
    bound_fcb (ex_world [⟨1, 0, 3, true⟩] 2 (faults_on Prim.flash_area_write [7])) ex_log = 10
    ∧ bound_entries (ex_world [⟨1, 0, 3, true⟩] 2 (faults_on Prim.flash_area_write [7])) ex_log = 2
    ∧ (log_fcb_copy_entry ex_params 3
        (ex_world [⟨1, 0, 3, true⟩] 2 (faults_on Prim.flash_area_write [7])) ex_log
        ⟨some 1, 0, 0, 3⟩ 100).map (fun r => (r.1, bound_fcb r.2 ex_log, bound_entries r.2 ex_log))
      = some (7, 100, 0)
    ∧ (log_fcb_copy ex_params 5
        (ex_world [⟨1, 0, 3, true⟩] 2 (faults_on Prim.flash_area_write [7])) ex_log
        10 100 0).map (fun r => (r.1, bound_fcb r.2 ex_log, bound_entries r.2 ex_log))
      = some (7, 100, 0)
    ∧ (log_fcb_rtr_erase ex_params 6
        (ex_world [⟨1, 0, 3, true⟩] 2 (faults_on Prim.flash_area_write [7])) (some ex_log)
        fcb_log_addr).map (fun r => (r.1, bound_fcb r.2 ex_log, bound_entries r.2 ex_log))
      = some (7, 100, 0) := by
  decide!

/-! ## Appending: `log_fcb_append` -/

theorem slots_entries_append (ss ts : List fcb_slot) :
    ∀ n, slots_entries n (ss ++ ts) = slots_entries n ss ++ slots_entries (n + ss.length) ts := by
  induction ss with
  | nil => intro n; simp [slots_entries]
  | cons s ss ih =>
    intro n
    have h : n + 1 + ss.length = n + (ss.length + 1) := by omega
    simp only [List.cons_append, slots_entries, List.length_cons]
    split <;> simp [ih (n + 1), h]

theorem fcb_push_entries (f : fcb) (area off len : Nat) :
    fcb_entries (fcb_push f area off len).1 = fcb_entries f := by
  simp [fcb_push, fcb_entries, slots_entries_append, slots_entries]

/-- What a successful reservation does: an uncommitted slot of `len` bytes is
added behind the existing slots, and the locator designates it. -/
theorem fcb_reserve_some (f f1 : fcb) (len : Nat) (l : fcb_entry)
    (h : fcb_reserve f len = some (f1, l)) :
    ∃ area off, f1.f_slots = f.f_slots ++ [⟨area, off, len, false⟩] ∧ f1.f_base = f.f_base
      ∧ l = ⟨some area, f.f_base + f.f_slots.length, off, len⟩ := by
  unfold fcb_reserve at h
  simp only [] at h
  have hnext : ∀ (r : fcb × fcb_entry),
      (match f.f_free with
        | [] => none
        | a :: rest =>
          if len ≤ a.fa_size then
            some (fcb_push { f with f_ring := f.f_ring ++ [a], f_free := rest } a.fa_id 0 len)
          else none) = some r →
      ∃ area off, r.1.f_slots = f.f_slots ++ [⟨area, off, len, false⟩] ∧ r.1.f_base = f.f_base
        ∧ r.2 = ⟨some area, f.f_base + f.f_slots.length, off, len⟩ := by
    intro r hr
    split at hr
    · simp at hr
    · split at hr
      · simp only [Option.some.injEq] at hr
        subst hr
        exact ⟨_, _, rfl, rfl, rfl⟩
      · simp at hr
  split at h
  · exact hnext _ h
  · split at h
    · simp only [Option.some.injEq] at h
      have h1 := congrArg Prod.fst h
      have h2 := congrArg Prod.snd h
      simp only [] at h1 h2
      subst h1; subst h2
      exact ⟨_, _, rfl, rfl, rfl⟩
    · exact hnext _ h

theorem fcb_reserve_entries (f f1 : fcb) (len : Nat) (l : fcb_entry)
    (h : fcb_reserve f len = some (f1, l)) : fcb_entries f1 = fcb_entries f := by
  obtain ⟨area, off, hs, hb, _⟩ := fcb_reserve_some f f1 len l h
  simp [fcb_entries, hs, hb, slots_entries_append, slots_entries]

/-- A reservation never changes the flash, and the live entries of every
buffer stay as they were. -/
theorem fcb_append_frame (P : Params) (w : World) (fcb len : Nat) (loc : fcb_entry) :
    (fcb_append P w fcb len loc).2.2.flash = w.flash
    ∧ (∀ a, fcb_entries ((fcb_append P w fcb len loc).2.2.fcbs a) = fcb_entries (w.fcbs a))
    ∧ ((fcb_append P w fcb len loc).1 ≠ 0 → (fcb_append P w fcb len loc).2.2.fcbs = w.fcbs) := by
  unfold fcb_append
  simp only []
  split
  · exact ⟨pop_flash w _, fun a => by rw [pop_fcbs], fun _ => pop_fcbs w _⟩
  · split
    · exact ⟨pop_flash w _, fun a => by rw [pop_fcbs], fun _ => pop_fcbs w _⟩
    · rename_i f1 l hres
      refine ⟨pop_flash w _, ?_, fun h => absurd rfl h⟩
      intro a
      simp only [World.set_fcb]
      split
      · rename_i ha
        subst ha
        rw [fcb_reserve_entries _ _ _ _ hres, pop_fcbs]
      · rw [pop_fcbs]

/-- A failing flash write changes neither the flash nor any buffer. -/
theorem flash_area_write_fail (w : World) (area : Option Nat) (off : Nat) (buf : List Nat)
    (len : Nat) (h : (flash_area_write w area off buf len).1 ≠ 0) :
    (flash_area_write w area off buf len).2.flash = w.flash
    ∧ (flash_area_write w area off buf len).2.fcbs = w.fcbs := by
  unfold flash_area_write at h ⊢
  simp only [] at h ⊢
  split
  · exact ⟨pop_flash w _, pop_fcbs w _⟩
  · split
    · exact ⟨pop_flash w _, pop_fcbs w _⟩
    · rename_i hrc _ a
      rw [if_neg hrc] at h
      exact absurd rfl h

theorem set_fcb_other (w : World) (a b : Nat) (f : fcb) (h : b ≠ a) :
    (w.set_fcb a f).fcbs b = w.fcbs b := by
  simp [World.set_fcb, h]

theorem same_binding_refl (w : World) : same_binding w w := ⟨rfl, rfl⟩

theorem same_binding_trans {w w1 w2 : World} (h1 : same_binding w w1) (h2 : same_binding w1 w2) :
    same_binding w w2 := ⟨h2.1.trans h1.1, h2.2.trans h1.2⟩

theorem same_binding_bound {w w1 : World} (h : same_binding w w1) (lg : log) :
    bound_fcb w1 lg = bound_fcb w lg ∧ bound_entries w1 lg = bound_entries w lg := by
  unfold bound_fcb bound_entries
  rw [h.1, h.2]
  exact ⟨rfl, rfl⟩

theorem pop_same (w : World) (p : Prim) : same_binding w (w.pop p).2 :=
  ⟨pop_handlers w p, pop_bindings w p⟩

theorem fcb_append_same (P : Params) (w : World) (fcb len : Nat) (loc : fcb_entry) :
    same_binding w (fcb_append P w fcb len loc).2.2 := by
  unfold fcb_append
  simp only []
  split
  · exact pop_same w _
  · split
    · exact pop_same w _
    · exact pop_same w _

theorem flash_area_write_same (w : World) (area : Option Nat) (off : Nat) (buf : List Nat)
    (len : Nat) : same_binding w (flash_area_write w area off buf len).2 := by
  unfold flash_area_write
  simp only []
  split
  · exact pop_same w _
  · split
    · exact pop_same w _
    · exact pop_same w _

theorem log_fcb_append_loop_succ (P : Params) (fuel : Nat) (w : World) (lg : log)
    (fcb_log fcb : Nat) (buf : List Nat) (len : Nat) (loc : fcb_entry) :
    log_fcb_append_loop P (fuel + 1) w lg fcb_log fcb buf len loc =
    if (fcb_append P w fcb len loc).1 = 0 then
      if (flash_area_write (fcb_append P w fcb len loc).2.2
            (fcb_append P w fcb len loc).2.1.fe_area
            (fcb_append P w fcb len loc).2.1.fe_data_off buf len).1 ≠ 0 then
        some (flash_area_write (fcb_append P w fcb len loc).2.2
            (fcb_append P w fcb len loc).2.1.fe_area
            (fcb_append P w fcb len loc).2.1.fe_data_off buf len)
      else
        some (fcb_append_finish (flash_area_write (fcb_append P w fcb len loc).2.2
            (fcb_append P w fcb len loc).2.1.fe_area
            (fcb_append P w fcb len loc).2.1.fe_data_off buf len).2 fcb
            (fcb_append P w fcb len loc).2.1)
    else if (fcb_append P w fcb len loc).1 ≠ P.FCB_ERR_NOSPACE then
      some ((fcb_append P w fcb len loc).1, (fcb_append P w fcb len loc).2.2)
    else if ((fcb_append P w fcb len loc).2.2.handlers lg.l_log).log_rtr_erase.isSome
        ∧ ((fcb_append P w fcb len loc).2.2.bindings fcb_log).fl_entries ≠ 0 then
      match log_fcb_rtr_erase P fuel (fcb_append P w fcb len loc).2.2 (some lg) fcb_log with
      | none => none
      | some r =>
        if r.1 ≠ 0 then some r
        else log_fcb_append_loop P fuel r.2 lg fcb_log fcb buf len (fcb_append P w fcb len loc).2.1
    else
      if (fcb_rotate (fcb_append P w fcb len loc).2.2 fcb).1 ≠ 0 then
        some (fcb_rotate (fcb_append P w fcb len loc).2.2 fcb)
      else log_fcb_append_loop P fuel (fcb_rotate (fcb_append P w fcb len loc).2.2 fcb).2 lg
        fcb_log fcb buf len (fcb_append P w fcb len loc).2.1 := by
  rw [log_fcb_append_loop]
  simp only []
  split
  · rfl
  · split
    · rfl
    · split
      · split <;> rename_i heq <;> rw [heq]
      · rfl

theorem log_fcb_append_succ (P : Params) (fuel : Nat) (w : World) (lg : log) (buf : List Nat)
    (len : Nat) :
    log_fcb_append P (fuel + 1) w lg buf len =
      log_fcb_append_loop P fuel w lg (w.handlers lg.l_log).log_arg (bound_fcb w lg) buf len
        fcb_entry_zero := by
  rw [log_fcb_append]
  rfl

theorem log_fcb_copy_entry_succ (P : Params) (fuel : Nat) (w : World) (lg : log)
    (entry : fcb_entry) (dst_fcb : Nat) :
    log_fcb_copy_entry P (fuel + 1) w lg entry dst_fcb =
    if (copy_read_hdr P w lg entry).1 ≠ (P.sizeof_ueh : Int) then
      some ((copy_read_hdr P w lg entry).1, (copy_read_hdr P w lg entry).2.2)
    else if (copy_read_data P w lg entry).1 < 0 then
      some ((copy_read_data P w lg entry).1, (copy_read_data P w lg entry).2.2)
    else
      match log_fcb_append P fuel
          (log_fcb_handler_init (copy_read_data P w lg entry).2.2 lg.l_log dst_fcb 0).2 lg
          ((copy_read_data P w lg entry).2.1.set (copy_read_data P w lg entry).1.toNat 0)
          (copy_dlen P entry) with
      | none => none
      | some r =>
        if r.1 ≠ 0 then some r
        else some (log_fcb_handler_init r.2 lg.l_log
          (bound_fcb (copy_read_data P w lg entry).2.2 lg)
          (bound_entries (copy_read_data P w lg entry).2.2 lg)) := by
  rw [log_fcb_copy_entry]
  simp only [copy_read_hdr, copy_read_data, copy_dlen]
  split
  · rfl
  · split
    · rfl
    · have h3 : ∀ (x : World) (a b c : Nat), ¬ (log_fcb_handler_init x a b c).1 ≠ 0 := by
        intro x a b c; simp [log_fcb_handler_init]
      rw [if_neg (h3 _ _ _ _)]
      split <;> rename_i heq <;> rw [heq]

theorem log_fcb_rtr_erase_none (P : Params) (fuel : Nat) (w : World) (arg : Nat) :
    log_fcb_rtr_erase P (fuel + 1) w none arg = some (-1, w) := by
  rw [log_fcb_rtr_erase]

theorem log_fcb_rtr_erase_succ (P : Params) (fuel : Nat) (w : World) (lg : log) (arg : Nat) :
    log_fcb_rtr_erase P (fuel + 1) w (some lg) arg =
    if (rtr_open P w).1 ≠ 0 then some (0, (rtr_open P w).2.2)
    else if (rtr_init P w).1 ≠ 0 then some (rtr_init P w)
    else if (rtr_clear P w).1 ≠ 0 then some (rtr_clear P w)
    else if (rtr_offset P w arg).1 ≠ 0 then some ((rtr_offset P w arg).1, (rtr_offset P w arg).2.2)
    else
      match log_fcb_copy P fuel (rtr_offset P w arg).2.2 lg (w.bindings arg).fl_fcb
          P.fcb_scratch_addr (rtr_offset P w arg).2.1 with
      | none => none
      | some r =>
        if r.1 ≠ 0 then some r
        else if (log_fcb_flush r.2 lg).1 ≠ 0 then some (log_fcb_flush r.2 lg)
        else log_fcb_copy P fuel (log_fcb_flush r.2 lg).2 lg P.fcb_scratch_addr
          (w.bindings arg).fl_fcb 0 := by
  rw [log_fcb_rtr_erase]
  simp only []
  split
  · rfl
  · split
    · rfl
    · split
      · rfl
      · split
        · rfl
        · split <;> rename_i heq <;> rw [heq]

/-! ## The bound buffer is kept by the operations that return 0 -/

theorem pop_quiet (w : World) (p : Prim) (h : quiet w) : w.pop p = (0, w) := by
  unfold World.pop
  rw [h p]

theorem flash_area_read_quiet (w : World) (a off : Nat) (buf : List Nat) (len : Nat)
    (h : quiet w) :
    flash_area_read w (some a) off buf len = (0, flash_bytes w.flash a off len ++ buf.drop len, w) := by
  unfold flash_area_read
  rw [pop_quiet w _ h]
  simp only [ne_eq, not_true_eq_false, if_false]

theorem log_fcb_read_quiet (w : World) (lg : log) (e : fcb_entry) (a : Nat) (buf : List Nat)
    (n : Nat) (h : quiet w) (ha : e.fe_area = some a) (hn : n ≤ e.fe_data_len)
    (h16 : n < 65536) :
    log_fcb_read w lg e buf 0 n
      = ((n : Int), flash_bytes w.flash a e.fe_data_off n ++ buf.drop n, w) := by
  have hl : log_fcb_read_len e (0 % 65536) (n % 65536) = n := by
    unfold log_fcb_read_len
    rw [Nat.mod_eq_of_lt h16, Nat.zero_mod, if_neg (by omega)]
  unfold log_fcb_read
  simp only [hl, ha, Nat.zero_mod, Nat.add_zero, flash_area_read_quiet w a _ buf n h, if_true]

theorem packed_slots_mem (area : Nat) (ls : List Nat) :
    ∀ u s, s ∈ packed_slots area u ls →
      s.s_area = area ∧ s.s_off + s.s_len ≤ u + ls.sum ∧ s.s_done = true := by
  induction ls with
  | nil => intro u s h; simp [packed_slots] at h
  | cons x ls ih =>
    intro u s h
    simp only [packed_slots, List.mem_cons] at h
    rcases h with h | h
    · subst h
      simp only [List.sum_cons, true_and, and_true]
      omega
    · obtain ⟨h1, h2, h3⟩ := ih (u + x) s h
      refine ⟨h1, ?_, h3⟩
      simp only [List.sum_cons]
      omega

/-- C5 (failing input): retention count 2, a buffer of one 8-byte sector.
The payloads `[1,2,3]`, `[4,5]`, `[7,8,9]` fill it; the append of `[10,11,12]`
runs out of space and calls the retention-preserving erase, during which the
two header reads of the entries to keep fail (status 1). Every append returns
0, four entries have been appended, and the walk afterwards finds a single
entry, the last one. -/
theorem log_fcb_append_loses_retained :
    (log_fcb_append_all ex_params 12 ex_log
        (ex_world [] 2 (faults_on Prim.flash_area_read [1, 1]))
        [[1, 2, 3], [4, 5], [7, 8, 9], [10, 11, 12]]).map
      (fun r => (r.1, (live_entries r.2 ex_log).map (entry_data r.2)))
      = some ([0, 0, 0, 0], [[10, 11, 12]])
    ∧ min 2 4 = 2 := by
  decide!

/-! ## `log_fcb_copy_entry`: return code, copied bytes, buffer bound -/

/-- C13 (failing input): the header read of `log_fcb_copy_entry` fails (the
flash read reports status 1, so `log_fcb_read` returns 0): the function
returns 0 although nothing has been appended to the destination buffer (the
buffer at address 100, which holds no entry before and after). -/
theorem log_fcb_copy_entry_reports_success :
    (copy_read_hdr ex_params (ex_world [⟨1, 0, 3, true⟩] 2 (faults_on Prim.flash_area_read [1]))
        ex_log ⟨some 1, 0, 0, 3⟩).1 = 0
    ∧ (log_fcb_copy_entry ex_params 3
        ((ex_world [⟨1, 0, 3, true⟩] 2 (faults_on Prim.flash_area_read [1])).set_fcb 100
          (ex_fcb [])) ex_log ⟨some 1, 0, 0, 3⟩ 100).map
        (fun r => (r.1, fcb_entries (r.2.fcbs 100)))
      = some (0, []) := by
  decide

/-- C14 (failing input): the header read of `log_fcb_copy_entry` succeeds and
the payload read fails (status 1); `rc < 0` does not hold because
`log_fcb_read` returns 0, and the uninitialised buffer (terminator 0 followed
by stack bytes 170) is appended to the destination as an entry of 3 bytes,
where the source entry holds the bytes 0, 1, 2. Through `log_fcb_rtr_erase`
the live buffer ends up with that entry in place of the original. -/
theorem log_fcb_copy_entry_appends_garbage :
    entry_data (ex_world [⟨1, 0, 3, true⟩] 2 (faults_on Prim.flash_area_read [0, 1]))
        ⟨some 1, 0, 0, 3⟩ = [0, 1, 2]
    ∧ (log_fcb_copy_entry ex_params 3
        ((ex_world [⟨1, 0, 3, true⟩] 2 (faults_on Prim.flash_area_read [0, 1])).set_fcb 100
          { ex_fcb [] with f_sectors := [⟨3, 8⟩], f_ring := [⟨3, 8⟩] }) ex_log
        ⟨some 1, 0, 0, 3⟩ 100).map
        (fun r => (r.1, (fcb_entries (r.2.fcbs 100)).map (entry_data r.2)))
      = some (0, [[0, 170, 170]])
    ∧ (log_fcb_rtr_erase ex_params 8
        (ex_world [⟨1, 0, 3, true⟩] 2 (faults_on Prim.flash_area_read [0, 1])) (some ex_log)
        fcb_log_addr).map (fun r => (r.1, (live_entries r.2 ex_log).map (entry_data r.2)))
      = some (0, [[0, 170, 170]]) := by
  decide!

/-- C15 (failing input): for an entry of 6 data bytes, with
`LOG_PRINTF_MAX_ENTRY_LEN + sizeof(ueh) = 6`, the payload read returns 6 and
the terminator write `data[rc]` uses index 6 of a buffer of 6 bytes. -/
theorem log_fcb_copy_entry_terminator_index :
    (List.replicate (ex_params.LOG_PRINTF_MAX_ENTRY_LEN + ex_params.sizeof_ueh)
        ex_params.stack_fill).length = 6
    ∧ (copy_read_hdr ex_params (ex_world [⟨1, 0, 6, true⟩] 2 no_faults) ex_log
        ⟨some 1, 0, 0, 6⟩).1 = (ex_params.sizeof_ueh : Int)
    ∧ (copy_read_data ex_params (ex_world [⟨1, 0, 6, true⟩] 2 no_faults) ex_log
        ⟨some 1, 0, 0, 6⟩).1.toNat = 6
    ∧ (copy_read_data ex_params (ex_world [⟨1, 0, 6, true⟩] 2 no_faults) ex_log
        ⟨some 1, 0, 0, 6⟩).2.1.length = 6 := by
  decide

/-! ## `log_fcb_handler_init`: one shared binding -/

/-- C16: `log_fcb_handler_init` returns 0, installs the five entry points of
`log_fcb.c` and points `log_arg` to the global `fcb_log`, where it stores the
buffer and the retention count (as a `uint8_t`). After initialising `h1` with
`(A, n1)` and then `h2` with `(B, n2)`, `h1` is still installed and is bound
to buffer `B` with retention count `n2`: flushes, walks and appends issued
through `h1` operate on `B`. -/
theorem log_fcb_handler_init_shared (P : Params) (w : World) (h1 h2 A B n1 n2 : Nat) :
    (log_fcb_handler_init w h1 A n1).1 = 0
    ∧ (log_fcb_handler_init w h1 A n1).2.handlers h1 = installed_handler
    ∧ (log_fcb_handler_init w h1 A n1).2.bindings fcb_log_addr = ⟨n1 % 256, A⟩
    ∧ (log_fcb_handler_init (log_fcb_handler_init w h1 A n1).2 h2 B n2).2.handlers h1
        = installed_handler
    ∧ bound_fcb (log_fcb_handler_init (log_fcb_handler_init w h1 A n1).2 h2 B n2).2 ⟨h1⟩ = B
    ∧ bound_entries (log_fcb_handler_init (log_fcb_handler_init w h1 A n1).2 h2 B n2).2 ⟨h1⟩
        = n2 % 256
    ∧ log_fcb_flush (log_fcb_handler_init (log_fcb_handler_init w h1 A n1).2 h2 B n2).2 ⟨h1⟩
        = fcb_clear (log_fcb_handler_init (log_fcb_handler_init w h1 A n1).2 h2 B n2).2 B
    ∧ (∀ (σ : Type) (walk_func : log → σ → fcb_entry → Nat → Int × σ) (arg : σ) (fuel : Nat),
        log_fcb_walk fuel (log_fcb_handler_init (log_fcb_handler_init w h1 A n1).2 h2 B n2).2
            ⟨h1⟩ walk_func arg
          = log_fcb_walk_loop (w.fcbs B) ⟨h1⟩ walk_func fuel fcb_entry_zero arg 0)
    ∧ (∀ (fuel : Nat) (buf : List Nat) (len : Nat),
        log_fcb_append P (fuel + 1)
            (log_fcb_handler_init (log_fcb_handler_init w h1 A n1).2 h2 B n2).2 ⟨h1⟩ buf len
          = log_fcb_append_loop P fuel
              (log_fcb_handler_init (log_fcb_handler_init w h1 A n1).2 h2 B n2).2 ⟨h1⟩
              fcb_log_addr B buf len fcb_entry_zero) := by
  have hh : (log_fcb_handler_init (log_fcb_handler_init w h1 A n1).2 h2 B n2).2.handlers h1
      = installed_handler := by
    simp only [log_fcb_handler_init, if_true]
    split <;> rfl
  have hb : bound_fcb (log_fcb_handler_init (log_fcb_handler_init w h1 A n1).2 h2 B n2).2 ⟨h1⟩
      = B := by
    unfold bound_fcb
    rw [hh]
    simp [log_fcb_handler_init, installed_handler]
  have he : bound_entries (log_fcb_handler_init (log_fcb_handler_init w h1 A n1).2 h2 B n2).2
      ⟨h1⟩ = n2 % 256 := by
    unfold bound_entries
    rw [hh]
    simp [log_fcb_handler_init, installed_handler]
  refine ⟨rfl, ?_, ?_, hh, hb, he, ?_, ?_, ?_⟩
  · simp only [log_fcb_handler_init, if_true]
    rfl
  · simp only [log_fcb_handler_init, if_true]
  · unfold log_fcb_flush
    rw [hb]
  · intro σ walk_func arg fuel
    unfold log_fcb_walk
    rw [hb]
    rfl
  · intro fuel buf len
    rw [log_fcb_append_succ, hb, hh]
    rfl

/-! ## Termination of the retry loop of `log_fcb_append` -/

/-- Whenever opening the scratch area fails, `log_fcb_rtr_erase` returns 0. -/
theorem log_fcb_rtr_erase_open_fails (P : Params) (fuel : Nat) (w : World) (lg : log)
    (arg : Nat) (h : (rtr_open P w).1 ≠ 0) :
    log_fcb_rtr_erase P (fuel + 1) w (some lg) arg = some (0, (rtr_open P w).2.2) := by
  rw [log_fcb_rtr_erase_succ, if_pos h]

/-- Whenever the header read of `log_fcb_copy_entry` returns 0 (a failed
flash read, or an entry without data) and the header size is not 0, the
function returns 0 without touching the destination. -/
theorem log_fcb_copy_entry_hdr_fails (P : Params) (fuel : Nat) (w : World) (lg : log)
    (e : fcb_entry) (dst : Nat) (hs : P.sizeof_ueh ≠ 0) (h : (copy_read_hdr P w lg e).1 = 0) :
    log_fcb_copy_entry P (fuel + 1) w lg e dst = some (0, (copy_read_hdr P w lg e).2.2)
    ∧ (copy_read_hdr P w lg e).2.2.fcbs = w.fcbs
    ∧ (copy_read_hdr P w lg e).2.2.flash = w.flash := by
  have hne : (copy_read_hdr P w lg e).1 ≠ (P.sizeof_ueh : Int) := by
    rw [h]
    intro h0
    exact hs (by exact_mod_cast h0.symm)
  refine ⟨?_, ?_, ?_⟩
  · rw [log_fcb_copy_entry_succ, if_pos hne, h]
  · unfold copy_read_hdr log_fcb_read flash_area_read
    simp only []
    repeat' split
    all_goals exact pop_fcbs w _
  · unfold copy_read_hdr log_fcb_read flash_area_read
    simp only []
    repeat' split
    all_goals exact pop_flash w _

/-- Whenever the reads succeed on an entry at least as long as the buffer
`data`, the terminator index equals the size of `data`. -/
theorem log_fcb_copy_entry_index_eq_size (P : Params) (w : World) (lg : log) (e : fcb_entry)
    (x : Nat) (hq : quiet w) (hx : e.fe_area = some x)
    (hlen : P.LOG_PRINTF_MAX_ENTRY_LEN + P.sizeof_ueh ≤ e.fe_data_len)
    (h16 : P.LOG_PRINTF_MAX_ENTRY_LEN + P.sizeof_ueh < 65536) :
    (copy_read_hdr P w lg e).1 = (P.sizeof_ueh : Int)
    ∧ (copy_read_data P w lg e).1.toNat
        = (List.replicate (P.LOG_PRINTF_MAX_ENTRY_LEN + P.sizeof_ueh) P.stack_fill).length := by
  have hhdr := log_fcb_read_quiet w lg e x (List.replicate P.sizeof_ueh P.stack_fill)
    P.sizeof_ueh hq hx (by omega) (by omega)
  have hdl : copy_dlen P e = P.LOG_PRINTF_MAX_ENTRY_LEN + P.sizeof_ueh := by
    unfold copy_dlen; exact min_eq_right hlen
  have hdat := log_fcb_read_quiet w lg e x
    (List.replicate (P.LOG_PRINTF_MAX_ENTRY_LEN + P.sizeof_ueh) P.stack_fill)
    (P.LOG_PRINTF_MAX_ENTRY_LEN + P.sizeof_ueh) hq hx hlen h16
  constructor
  · unfold copy_read_hdr; rw [hhdr]
  · unfold copy_read_data copy_read_hdr
    rw [hhdr, hdl, hdat]
    simp only [List.length_replicate]
    omega

/-! ## Errors other than lack of space in `log_fcb_append` -/

/-- C8 (counterexample): calls of `log_fcb_append` on a buffer of one 8-byte
sector holding entries that leave no room for a 3-byte payload, so that the
first reservation reports `FCB_ERR_NOSPACE` and a corrective action runs
before the failure. With retention count 0 and two 3-byte entries: the payload
write fails with 7 after the rotate, and the call returns 7 with no live entry
left; the second reservation fails with 9 after the rotate, and the call
returns 9 with no live entry left. With retention count 2 and entries of 2, 3
and 3 bytes: the second reservation fails with 9 after the
retention-preserving erase, and the call returns 9 with the two newest
entries left. -/
theorem log_fcb_append_abort_after_rotate :
    ((live_entries (ex_world [⟨1, 0, 3, true⟩, ⟨1, 3, 3, true⟩] 0
          (faults_on Prim.flash_area_write [7])) ex_log).map (fun e => e.fe_data_len) = [3, 3]
      ∧ (log_fcb_append ex_params 3
          (ex_world [⟨1, 0, 3, true⟩, ⟨1, 3, 3, true⟩] 0 (faults_on Prim.flash_area_write [7]))
          ex_log [1, 2, 3] 3).map
          (fun r => (r.1, (live_entries r.2 ex_log).map (fun e => e.fe_data_len)))
        = some (7, []))
    ∧ ((log_fcb_append ex_params 3
          (ex_world [⟨1, 0, 3, true⟩, ⟨1, 3, 3, true⟩] 0 (faults_on Prim.fcb_append [0, 9]))
          ex_log [1, 2, 3] 3).map
          (fun r => (r.1, (live_entries r.2 ex_log).map (fun e => e.fe_data_len)))
        = some (9, []))
    ∧ ((live_entries (ex_world [⟨1, 0, 2, true⟩, ⟨1, 2, 3, true⟩, ⟨1, 5, 3, true⟩] 2
          (faults_on Prim.fcb_append [0, 0, 0, 0, 0, 9])) ex_log).map
          (fun e => e.fe_data_len) = [2, 3, 3]
      ∧ (log_fcb_append ex_params 12
          (ex_world [⟨1, 0, 2, true⟩, ⟨1, 2, 3, true⟩, ⟨1, 5, 3, true⟩] 2
            (faults_on Prim.fcb_append [0, 0, 0, 0, 0, 9]))
          ex_log [1, 2, 3] 3).map
          (fun r => (r.1, (live_entries r.2 ex_log).map (fun e => e.fe_data_len)))
        = some (9, [3, 3])) := by
  decide!

/-- C8 (amended): at every slot reservation of `log_fcb_append` (the loop
head in any state `w`, be it the first reservation of the call or a retry
after a corrective action), a reservation that fails with a code other than
`FCB_ERR_NOSPACE` makes append return that code at once, the flash and every
buffer being as they were at that reservation (no rotate, erase, write or
commit follows it); and when the reservation succeeds but the flash write of
the payload fails, append returns the code of the write at once, nothing is
committed, and the flash and the live entries of every buffer are those at
that reservation. For a call whose first reservation fails in this way, or
whose payload write fails right after the first reservation, the call returns
that code and the flash, every buffer's live entries and the entries of the
bound buffer are those before the call. -/
theorem log_fcb_append_aborts (P : Params) (fuel : Nat) (w : World) (lg : log)
    (fcb_log fcb : Nat) (buf : List Nat) (len : Nat) (loc : fcb_entry) :
    ((fcb_append P w fcb len loc).1 ≠ 0 →
      (fcb_append P w fcb len loc).1 ≠ P.FCB_ERR_NOSPACE →
        log_fcb_append_loop P (fuel + 1) w lg fcb_log fcb buf len loc
          = some ((fcb_append P w fcb len loc).1, (fcb_append P w fcb len loc).2.2)
        ∧ (fcb_append P w fcb len loc).2.2.flash = w.flash
        ∧ (fcb_append P w fcb len loc).2.2.fcbs = w.fcbs)
    ∧ ((fcb_append P w fcb len loc).1 = 0 →
        (flash_area_write (fcb_append P w fcb len loc).2.2
          (fcb_append P w fcb len loc).2.1.fe_area (fcb_append P w fcb len loc).2.1.fe_data_off
          buf len).1 ≠ 0 →
        log_fcb_append_loop P (fuel + 1) w lg fcb_log fcb buf len loc
          = some (flash_area_write (fcb_append P w fcb len loc).2.2
              (fcb_append P w fcb len loc).2.1.fe_area
              (fcb_append P w fcb len loc).2.1.fe_data_off buf len)
        ∧ (flash_area_write (fcb_append P w fcb len loc).2.2
              (fcb_append P w fcb len loc).2.1.fe_area
              (fcb_append P w fcb len loc).2.1.fe_data_off buf len).2.flash = w.flash
        ∧ ∀ a, fcb_entries ((flash_area_write (fcb_append P w fcb len loc).2.2
              (fcb_append P w fcb len loc).2.1.fe_area
              (fcb_append P w fcb len loc).2.1.fe_data_off buf len).2.fcbs a)
            = fcb_entries (w.fcbs a))
    ∧ ((append_reserve P w lg len).1 ≠ 0 →
      (append_reserve P w lg len).1 ≠ P.FCB_ERR_NOSPACE →
        log_fcb_append P (fuel + 2) w lg buf len
          = some ((append_reserve P w lg len).1, (append_reserve P w lg len).2.2)
        ∧ (append_reserve P w lg len).2.2.flash = w.flash
        ∧ (append_reserve P w lg len).2.2.fcbs = w.fcbs
        ∧ live_entries (append_reserve P w lg len).2.2 lg = live_entries w lg)
    ∧ ((append_reserve P w lg len).1 = 0 →
      (append_write P w lg buf len).1 ≠ 0 →
        log_fcb_append P (fuel + 2) w lg buf len = some (append_write P w lg buf len)
        ∧ (append_write P w lg buf len).2.flash = w.flash
        ∧ (∀ a, fcb_entries ((append_write P w lg buf len).2.fcbs a) = fcb_entries (w.fcbs a))
        ∧ live_entries (append_write P w lg buf len).2 lg = live_entries w lg) := by
  have hloop : ∀ (fcb_log fcb : Nat) (loc : fcb_entry),
      ((fcb_append P w fcb len loc).1 ≠ 0 →
        (fcb_append P w fcb len loc).1 ≠ P.FCB_ERR_NOSPACE →
          log_fcb_append_loop P (fuel + 1) w lg fcb_log fcb buf len loc
            = some ((fcb_append P w fcb len loc).1, (fcb_append P w fcb len loc).2.2)
          ∧ (fcb_append P w fcb len loc).2.2.flash = w.flash
          ∧ (fcb_append P w fcb len loc).2.2.fcbs = w.fcbs)
      ∧ ((fcb_append P w fcb len loc).1 = 0 →
          (flash_area_write (fcb_append P w fcb len loc).2.2
            (fcb_append P w fcb len loc).2.1.fe_area (fcb_append P w fcb len loc).2.1.fe_data_off
            buf len).1 ≠ 0 →
          log_fcb_append_loop P (fuel + 1) w lg fcb_log fcb buf len loc
            = some (flash_area_write (fcb_append P w fcb len loc).2.2
                (fcb_append P w fcb len loc).2.1.fe_area
                (fcb_append P w fcb len loc).2.1.fe_data_off buf len)
          ∧ (flash_area_write (fcb_append P w fcb len loc).2.2
                (fcb_append P w fcb len loc).2.1.fe_area
                (fcb_append P w fcb len loc).2.1.fe_data_off buf len).2.flash = w.flash
          ∧ ∀ a, fcb_entries ((flash_area_write (fcb_append P w fcb len loc).2.2
                (fcb_append P w fcb len loc).2.1.fe_area
                (fcb_append P w fcb len loc).2.1.fe_data_off buf len).2.fcbs a)
              = fcb_entries (w.fcbs a)) := by
    intro fcb_log fcb loc
    have hfr := fcb_append_frame P w fcb len loc
    refine ⟨?_, ?_⟩
    · intro h0 hns
      refine ⟨?_, hfr.1, hfr.2.2 h0⟩
      rw [log_fcb_append_loop_succ, if_neg h0, if_pos hns]
    · intro h0 hwr
      have hw := flash_area_write_fail _ _ _ buf len hwr
      refine ⟨?_, by rw [hw.1, hfr.1], fun a => by rw [hw.2, hfr.2.1]⟩
      rw [log_fcb_append_loop_succ, if_pos h0, if_pos hwr]
  have hcall := hloop (w.handlers lg.l_log).log_arg (bound_fcb w lg) fcb_entry_zero
  have hsame1 : same_binding w (append_reserve P w lg len).2.2 :=
    fcb_append_same P w (bound_fcb w lg) len fcb_entry_zero
  have hsame2 : same_binding w (append_write P w lg buf len).2 :=
    same_binding_trans hsame1 (flash_area_write_same _ _ _ buf len)
  refine ⟨(hloop fcb_log fcb loc).1, (hloop fcb_log fcb loc).2, ?_, ?_⟩
  · intro h0 hns
    obtain ⟨h1, h2, h3⟩ := hcall.1 h0 hns
    refine ⟨?_, h2, h3, ?_⟩
    · rw [log_fcb_append_succ]; exact h1
    · unfold live_entries
      rw [(same_binding_bound hsame1 lg).1]
      exact congrArg fcb_entries (congrFun h3 _)
  · intro h0 hwr
    obtain ⟨h1, h2, h3⟩ := hcall.2 h0 hwr
    refine ⟨?_, h2, h3, ?_⟩
    · rw [log_fcb_append_succ]; exact h1
    · unfold live_entries
      rw [(same_binding_bound hsame2 lg).1]
      exact h3 _

/-- C8 (witness): a call whose first reservation fails with status 9, and a
call whose payload write fails with status 7 after the first reservation; in
both the one live entry is there as before. -/
theorem log_fcb_append_aborts_witness :
    ((append_reserve ex_params (ex_world [⟨1, 0, 3, true⟩] 2 (faults_on Prim.fcb_append [9]))
        ex_log 3).1 = 9
      ∧ log_fcb_append ex_params 2
          (ex_world [⟨1, 0, 3, true⟩] 2 (faults_on Prim.fcb_append [9])) ex_log [1, 2, 3] 3
        = some ((append_reserve ex_params
            (ex_world [⟨1, 0, 3, true⟩] 2 (faults_on Prim.fcb_append [9])) ex_log 3).1,
          (append_reserve ex_params
            (ex_world [⟨1, 0, 3, true⟩] 2 (faults_on Prim.fcb_append [9])) ex_log 3).2.2)
      ∧ live_entries (append_reserve ex_params
            (ex_world [⟨1, 0, 3, true⟩] 2 (faults_on Prim.fcb_append [9])) ex_log 3).2.2 ex_log
          = live_entries (ex_world [⟨1, 0, 3, true⟩] 2 (faults_on Prim.fcb_append [9])) ex_log)
    ∧ ((append_write ex_params (ex_world [⟨1, 0, 3, true⟩] 2 (faults_on Prim.flash_area_write [7]))
          ex_log [1, 2, 3] 3).1 = 7
      ∧ log_fcb_append ex_params 2
          (ex_world [⟨1, 0, 3, true⟩] 2 (faults_on Prim.flash_area_write [7])) ex_log [1, 2, 3] 3
        = some (append_write ex_params
            (ex_world [⟨1, 0, 3, true⟩] 2 (faults_on Prim.flash_area_write [7])) ex_log [1, 2, 3] 3)
      ∧ live_entries (append_write ex_params
            (ex_world [⟨1, 0, 3, true⟩] 2 (faults_on Prim.flash_area_write [7])) ex_log
            [1, 2, 3] 3).2 ex_log
          = live_entries (ex_world [⟨1, 0, 3, true⟩] 2 (faults_on Prim.flash_area_write [7]))
              ex_log) :=
  ⟨⟨by decide,
    ((log_fcb_append_aborts ex_params 0
        (ex_world [⟨1, 0, 3, true⟩] 2 (faults_on Prim.fcb_append [9])) ex_log fcb_log_addr 10
        [1, 2, 3] 3 fcb_entry_zero).2.2.1 (by decide) (by decide)).1,
    ((log_fcb_append_aborts ex_params 0
        (ex_world [⟨1, 0, 3, true⟩] 2 (faults_on Prim.fcb_append [9])) ex_log fcb_log_addr 10
        [1, 2, 3] 3 fcb_entry_zero).2.2.1 (by decide) (by decide)).2.2.2⟩,
   ⟨by decide,
    ((log_fcb_append_aborts ex_params 0
        (ex_world [⟨1, 0, 3, true⟩] 2 (faults_on Prim.flash_area_write [7])) ex_log fcb_log_addr
        10 [1, 2, 3] 3 fcb_entry_zero).2.2.2 (by decide) (by decide)).1,
    ((log_fcb_append_aborts ex_params 0
        (ex_world [⟨1, 0, 3, true⟩] 2 (faults_on Prim.flash_area_write [7])) ex_log fcb_log_addr
        10 [1, 2, 3] 3 fcb_entry_zero).2.2.2 (by decide) (by decide)).2.2.2⟩⟩

end LogFcb
